import Mathlib

/-!
# Verification of the onos-topo versioned device store

A shallow embedding of `pkg/store/device.go` (the `atomixStore`
implementation over an Atomix map) together with the data model of the
device API and a model of the northbound validation service, with theorems
settling the specification claims about them.

The persistence substrate (the Atomix map) is an external collaborator of
the repository; it is modelled here from the contract the specification
assumes of it (§6): a versioned key-value map with `get`, `put` with an
optional version guard, `remove` with an optional version guard, an
`entries` enumeration, and a `watch` stream with replay.  Serialized
protobuf bytes are modelled opaquely: a byte value is either the
serialization of a device or bytes that fail to unmarshal.
-/

/-- Modelled from the spec (§3): the device protocol enum carried in a
`ProtocolState`.  The concrete device API package is not among the provided
source files; the test exercises `Protocol_GNMI`. -/
inductive Protocol
  | unknownProtocol
  | gnmi
deriving DecidableEq

/-- Modelled from the spec (§3): connectivity state of a protocol entry. -/
inductive ConnectivityState
  | unknownConnectivityState
  | reachable
  | unreachable
deriving DecidableEq

/-- Modelled from the spec (§3): channel state of a protocol entry. -/
inductive ChannelState
  | unknownChannelState
  | connected
  | disconnected
deriving DecidableEq

/-- Modelled from the spec (§3): service state of a protocol entry. -/
inductive ServiceState
  | unknownServiceState
  | available
  | unavailable
deriving DecidableEq

/-- Modelled from the spec (§3): one element of a device protocol list:
`{protocol, connectivityState, channelState, serviceState}`. -/
structure ProtocolState where
  protocol : Protocol
  connectivityState : ConnectivityState
  channelState : ChannelState
  serviceState : ServiceState
deriving DecidableEq

/-- Modelled from the spec (§3): device credentials `{user, password}`. -/
structure Credentials where
  user : String
  password : String
deriving DecidableEq

/-- Modelled from the spec (§3): device TLS configuration
`{cert, key, caCert, plain, insecure}`. -/
structure TlsConfig where
  cert : String
  key : String
  caCert : String
  plain : Bool
  insecure : Bool
deriving DecidableEq

/-- Modelled from the spec (§3): the central `Device` entity of the device
API.  `typ` stands for the Go field `Type` (a reserved word in Lean); the
connection timeout is modelled as an optional duration in nanoseconds; the
unordered attribute map is modelled as an association list; `revision` is
the store-assigned version stamp (`0` means unset). -/
structure Device where
  id : String
  typ : String
  role : String
  target : String
  address : String
  version : String
  timeout : Option Nat
  credentials : Credentials
  tls : TlsConfig
  attributes : List (String × String)
  protocols : List ProtocolState
  revision : Nat
deriving DecidableEq

/-- A device with every field empty or unset; concrete test inputs are
built from it by updating the relevant fields. -/
def emptyDevice : Device :=
  { id := ""
    typ := ""
    role := ""
    target := ""
    address := ""
    version := ""
    timeout := none
    credentials := { user := "", password := "" }
    tls := { cert := "", key := "", caCert := "", plain := false, insecure := false }
    attributes := []
    protocols := []
    revision := 0 }

/-- Stored byte strings, modelled opaquely: `proto.Marshal` of a device
produces `dev d`, and any other byte string (`corrupt`) fails to
unmarshal.  This keeps the payload of an entry abstract while recording
exactly what `proto.Unmarshal` can recover from it. -/
inductive Bytes
  | dev (d : Device)
  | corrupt
deriving DecidableEq

/-- `proto.Marshal` on an in-memory device (always succeeds). -/
def marshal (d : Device) : Bytes :=
  Bytes.dev d

/-- The typed failures of the store layer: `notFound` and `conflict` are
the substrate outcomes `absent` and `versionMismatch` (spec §6, §7),
`timeout` models a context deadline expiry, and `decodeError` a
`proto.Unmarshal` failure. -/
inductive StoreError
  | notFound
  | conflict
  | timeout
  | decodeError
deriving DecidableEq

/-- A substrate map entry `(key, value, version)`, the `_map.Entry` of the
Atomix client. -/
structure Entry where
  key : String
  value : Bytes
  version : Nat
deriving DecidableEq

/-- Model of the external Atomix map (spec §6): the current entries plus a
version counter.  Every successful put assigns version `nextVersion` and
increments the counter, so assigned versions strictly increase over the
life of the map, as the spec assumes of the substrate. -/
structure MapState where
  entries : List Entry
  nextVersion : Nat
deriving DecidableEq

/-- A fresh map: no entries, first version to be assigned is `1` (substrate
versions are non-zero; revision `0` is reserved to mean unset, spec §3). -/
def mapEmpty : MapState :=
  { entries := [], nextVersion := 1 }

/-- Substrate `get(key) -> (value, version) | absent` (spec §6). -/
def MapState.get (s : MapState) (k : String) : Option Entry :=
  s.entries.find? (fun e => e.key == k)

/-- Substrate `put(key, value)` without a version guard (spec §6):
unconditionally stores the value under the key with a freshly assigned
version, returning the new state and the new entry. -/
def MapState.put (s : MapState) (k : String) (v : Bytes) : MapState × Entry :=
  let e : Entry := { key := k, value := v, version := s.nextVersion }
  ({ entries := s.entries.filter (fun x => x.key != k) ++ [e]
     nextVersion := s.nextVersion + 1 }, e)

/-- Substrate `put(key, value, ifVersion)` (spec §6), with the outcomes the
spec requires of the store contract (§4.1): `absent` when the key no longer
exists, `versionMismatch` when the current version differs from the guard,
and otherwise the unconditional put. -/
def MapState.putIfVersion (s : MapState) (k : String) (v : Bytes) (rev : Nat) :
    Except StoreError (MapState × Entry) :=
  match s.get k with
  | none => Except.error StoreError.notFound
  | some e =>
    if e.version = rev then Except.ok (s.put k v) else Except.error StoreError.conflict

/-- Substrate `remove(key)` without a version guard (spec §6): drops the
key if present; removing an absent key is a no-op. -/
def MapState.remove (s : MapState) (k : String) : MapState :=
  { entries := s.entries.filter (fun x => x.key != k)
    nextVersion := s.nextVersion }

/-- Substrate `remove(key, ifVersion)` (spec §6): `absent` when the key
does not exist, `versionMismatch` when the current version differs from
the guard, otherwise the removal. -/
def MapState.removeIfVersion (s : MapState) (k : String) (rev : Nat) :
    Except StoreError MapState :=
  match s.get k with
  | none => Except.error StoreError.notFound
  | some e =>
    if e.version = rev then Except.ok (s.remove k) else Except.error StoreError.conflict

/-- `decodeDevice` (device.go lines 406-414): unmarshal the entry value,
then overwrite the decoded device's `ID` with the entry key and its
`Revision` with the entry version. -/
def decodeDevice (entry : Entry) : Except StoreError Device :=
  match entry.value with
  | Bytes.corrupt => Except.error StoreError.decodeError
  | Bytes.dev d => Except.ok { d with id := entry.key, revision := entry.version }

/-- `atomixStore.Load` (device.go lines 313-324): get the entry for the id;
when the substrate reports the key absent (`entry == nil`) return a nil
device with a nil error; otherwise decode.  The state is returned
unchanged: `Load` performs no mutation. -/
def atomixStore.Load (s : MapState) (deviceID : String) :
    MapState × Except StoreError (Option Device) :=
  match s.get deviceID with
  | none => (s, Except.ok none)
  | some entry =>
    match decodeDevice entry with
    | Except.ok d => (s, Except.ok (some d))
    | Except.error e => (s, Except.error e)

/-- `atomixStore.Store` (device.go lines 326-350): marshal the device (with
its current revision), then put it under key `device.ID` — unconditionally
when `device.Revision == 0`, with an `IfVersion(device.Revision)` guard
otherwise.  On success line 348 assigns the new entry version to
`device.Revision` in place through the caller's pointer; the `Device` in
the returned `Except` is the contents of the caller's device after the
call. -/
def atomixStore.Store (s : MapState) (device : Device) :
    MapState × Except StoreError Device :=
  let bytes := marshal device
  if device.revision = 0 then
    let r := s.put device.id bytes
    (r.1, Except.ok { device with revision := r.2.version })
  else
    match s.putIfVersion device.id bytes device.revision with
    | Except.error e => (s, Except.error e)
    | Except.ok r => (r.1, Except.ok { device with revision := r.2.version })

/-- `atomixStore.Delete` (device.go lines 352-362): when the device carries
a non-zero revision, remove with an `IfVersion` guard; otherwise remove
unconditionally by `device.ID`. -/
def atomixStore.Delete (s : MapState) (device : Device) :
    MapState × Except StoreError Unit :=
  if 0 < device.revision then
    match s.removeIfVersion device.id device.revision with
    | Except.error e => (s, Except.error e)
    | Except.ok s₁ => (s₁, Except.ok ())
  else
    (s.remove device.id, Except.ok ())

/-- `atomixStore.List` (device.go lines 364-379): enumerate the substrate
entries and forward each one that decodes successfully; an entry whose
value fails to decode is skipped (`if err == nil`) with no error
surfaced. -/
def atomixStore.List (s : MapState) : Except StoreError (List Device) :=
  Except.ok (s.entries.filterMap (fun e => (decodeDevice e).toOption))

/-- The Atomix map event types carried by `_map.Event` (spec §6:
`watch([replay]) -> stream of (eventType, key, value, version)`); replay
events carry the none type, live events the kind of mutation. -/
inductive MapEventType
  | noneEvt
  | insertedEvt
  | updatedEvt
  | removedEvt
deriving DecidableEq

/-- A substrate watch event: an event type together with the affected
entry. -/
structure MapEvent where
  typ : MapEventType
  entry : Entry
deriving DecidableEq

/-- `EventType` (device.go lines 416-428): the store-level event type, a
closed set of four named constants (`EventNone`, `EventInserted`,
`EventUpdated`, `EventRemoved`). -/
inductive EventType
  | EventNone
  | EventInserted
  | EventUpdated
  | EventRemoved
deriving DecidableEq

/-- The cast `EventType(event.Type)` on device.go line 392: the store event
type corresponding to a substrate event type. -/
def eventTypeOfMapEvent : MapEventType → EventType
  | MapEventType.noneEvt => EventType.EventNone
  | MapEventType.insertedEvt => EventType.EventInserted
  | MapEventType.updatedEvt => EventType.EventUpdated
  | MapEventType.removedEvt => EventType.EventRemoved

/-- `Event` (device.go lines 430-434): a store event for a device.  `typ`
stands for the Go field `Type`. -/
structure Event where
  typ : EventType
  device : Device
deriving DecidableEq

/-- Substrate `watch` with `WithReplay` (spec §6, §4.1), with the stream
modelled as a finite list of events: first one replay event per entry
currently in the map, then the live tail of events for subsequent
mutations, here abstracted as an arbitrary further event list. -/
def MapState.watchStream (s : MapState) (live : List MapEvent) : List MapEvent :=
  s.entries.map (fun e => { typ := MapEventType.noneEvt, entry := e }) ++ live

/-- The body of the forwarding goroutine of `atomixStore.Watch` (device.go
lines 387-397) applied to one substrate event: forward a store event when
the entry decodes, drop the event otherwise. -/
def watchEventOf (ev : MapEvent) : Option Event :=
  match decodeDevice ev.entry with
  | Except.ok d => some { typ := eventTypeOfMapEvent ev.typ, device := d }
  | Except.error _ => none

/-- The type of finite substrate event streams (spelled out because the
`atomixStore` namespace shadows `List` inside declarations named under
it). -/
abbrev MapEventStream : Type := List MapEvent

/-- The type of finite store event streams. -/
abbrev EventStream : Type := List Event

/-- `atomixStore.Watch` (device.go lines 381-399): subscribe to the
substrate with replay and forward each event whose entry decodes, in
stream order. -/
def atomixStore.Watch (s : MapState) (live : MapEventStream) : EventStream :=
  (s.watchStream live).filterMap watchEventOf

/-- The replay portion of a watch: the forwarded events for the entries
present when the watch began. -/
def watchReplay (s : MapState) : List Event :=
  (s.entries.map (fun e => ({ typ := MapEventType.noneEvt, entry := e } : MapEvent))).filterMap
    watchEventOf

/-- The live portion of a watch: the forwarded events for the substrate
events that follow the replay. -/
def watchLive (live : List MapEvent) : List Event :=
  live.filterMap watchEventOf

/-- The per-operation substrate context deadline, in seconds, exactly as
constructed in the source: `Load`, `Store` and `Delete` use
`context.WithTimeout(context.Background(), 15*time.Second)` (device.go
lines 314, 327, 353), while `List` and `Entries`/`Watch` pass
`context.Background()` with no deadline (device.go lines 366, 383). -/
inductive StoreOp
  | loadOp
  | storeOp
  | deleteOp
  | listOp
  | watchOp
deriving DecidableEq

/-- The deadline attached to each store operation's substrate context:
`some n` for `context.WithTimeout(..., n seconds)`, `none` for
`context.Background()`. -/
def opDeadlineSeconds : StoreOp → Option Nat
  | StoreOp.loadOp => some 15
  | StoreOp.storeOp => some 15
  | StoreOp.deleteOp => some 15
  | StoreOp.listOp => none
  | StoreOp.watchOp => none

/-- The failures of the northbound device service. -/
inductive ServiceError
  | invalidID
  | invalidAddress
  | invalidVersion
  | invalidRevision
  | notFound
  | storeFailure (e : StoreError)
deriving DecidableEq

/-- Split a character list on a separator character; the list of groups is
never empty (splitting the empty list gives one empty group). -/
def splitChars (sep : Char) : List Char → List (List Char)
  | [] => [[]]
  | c :: cs =>
    match splitChars sep cs with
    | [] => if c = sep then [[], []] else [[c]]
    | g :: gs => if c = sep then [] :: g :: gs else (c :: g) :: gs

/-- Modelled from the spec: the device-ID validation rule of the
Validating Orchestration Service (the service implementation is not among
the provided source files).  Spec §4.3 requires a conservative
host-name-safe shape — letters, digits and hyphens — rejecting `"foo"`
while accepting `"foobar"`, `"device-foo"` and `"good"` (§8), which fixes
a minimum length of 4 (and a bounded maximum, taken as 40). -/
def validDeviceID (s : String) : Bool :=
  decide (4 ≤ s.data.length) && decide (s.data.length ≤ 40) &&
    s.data.all (fun c => c.isAlphanum || c == '-')

/-- Modelled from the spec: the address validation rule of the Validating
Orchestration Service (§4.3): the address must parse as `host:port` with a
non-empty host and a non-empty numeric port. -/
def validAddress (s : String) : Bool :=
  match splitChars ':' s.data with
  | [host, port] => !host.isEmpty && !port.isEmpty && port.all Char.isDigit
  | _ => false

/-- Modelled from the spec: the version validation rule of the Validating
Orchestration Service (§4.3): the version must match a semantic-version
pattern `MAJOR.MINOR.PATCH` of non-empty digit groups. -/
def validVersion (s : String) : Bool :=
  match splitChars '.' s.data with
  | [major, minor, patch] =>
    !major.isEmpty && major.all Char.isDigit &&
      !minor.isEmpty && minor.all Char.isDigit &&
      !patch.isEmpty && patch.all Char.isDigit
  | _ => false

/-- Modelled from the spec: the `Add` operation of the Validating
Orchestration Service (§4.3; the service implementation is not among the
provided source files): validate `id`, `address` and `version` in that
order before any store interaction, reject a device that already carries a
non-zero revision, and otherwise delegate to `Store.Store`. -/
def Server.Add (s : MapState) (device : Device) : MapState × Except ServiceError Device :=
  if !(validDeviceID device.id) then (s, Except.error ServiceError.invalidID)
  else if !(validAddress device.address) then (s, Except.error ServiceError.invalidAddress)
  else if !(validVersion device.version) then (s, Except.error ServiceError.invalidVersion)
  else if device.revision ≠ 0 then (s, Except.error ServiceError.invalidRevision)
  else
    match atomixStore.Store s device with
    | (s₁, Except.ok d) => (s₁, Except.ok d)
    | (s₁, Except.error e) => (s₁, Except.error (ServiceError.storeFailure e))

/-- The valid device of the service test (`TestLocalServer`):
`id="device-foo"`, `type="test"`, `address="device-foo:1234"`,
`version="1.0.0"`, no revision. -/
def devFoo : Device :=
  { emptyDevice with
      id := "device-foo"
      typ := "test"
      address := "device-foo:1234"
      version := "1.0.0" }

/-- The map state after storing `devFoo` into a fresh map: one entry at
version 1, next version 2. -/
def stateOne : MapState :=
  { entries := [{ key := "device-foo", value := Bytes.dev devFoo, version := 1 }]
    nextVersion := 2 }

/-- A map state holding a single entry whose bytes fail to unmarshal. -/
def corruptState : MapState :=
  { entries := [{ key := "bad", value := Bytes.corrupt, version := 1 }]
    nextVersion := 2 }

/-! ## Basic lemmas about the substrate model -/

theorem MapState.get_put (s : MapState) (k : String) (v : Bytes) :
    (s.put k v).1.get k = some { key := k, value := v, version := s.nextVersion } := by
  unfold MapState.put MapState.get
  simp only [List.find?_append]
  have hnone :
      (s.entries.filter (fun x => x.key != k)).find? (fun e => e.key == k) = none := by
    rw [List.find?_eq_none]
    intro a ha
    have := List.of_mem_filter ha
    simpa [bne_iff_ne] using this
  rw [hnone]
  simp [List.find?]

theorem find_filter_other (l : List Entry) (k k₁ : String) (h : k₁ ≠ k) :
    (l.filter (fun x => x.key != k)).find? (fun e => e.key == k₁) =
      l.find? (fun e => e.key == k₁) := by
  induction l with
  | nil => rfl
  | cons a t ih =>
    by_cases ha : a.key = k₁
    · have hak : (a.key != k) = true := by simp [ha, h]
      simp [List.filter_cons, List.find?_cons, hak, ha, h]
    · by_cases hak : a.key = k
      · have hkk : (k == k₁) = false := by simp [Ne.symm h]
        simp [List.filter_cons, List.find?_cons, hak, ha, ih, hkk]
      · simp [List.filter_cons, List.find?_cons, hak, ha, ih]

theorem MapState.get_put_ne (s : MapState) (k k₁ : String) (v : Bytes) (h : k₁ ≠ k) :
    (s.put k v).1.get k₁ = s.get k₁ := by
  unfold MapState.put MapState.get
  simp only [List.find?_append, find_filter_other s.entries k k₁ h]
  cases hf : s.entries.find? (fun e => e.key == k₁) with
  | some e => rfl
  | none =>
    have hkk : (k == k₁) = false := by simp [Ne.symm h]
    simp [List.find?, hkk]

theorem MapState.put_nextVersion (s : MapState) (k : String) (v : Bytes) :
    (s.put k v).1.nextVersion = s.nextVersion + 1 := by
  rfl

theorem MapState.put_entry_version (s : MapState) (k : String) (v : Bytes) :
    (s.put k v).2.version = s.nextVersion := by
  rfl

/-- A `putIfVersion` that reports success performed exactly the
unconditional `put`. -/
theorem putIfVersion_ok (s : MapState) (k : String) (v : Bytes) (rev : Nat)
    (r : MapState × Entry) (h : s.putIfVersion k v rev = Except.ok r) :
    r = s.put k v := by
  unfold MapState.putIfVersion at h
  cases hg : s.get k with
  | none => simp [hg] at h
  | some e =>
    simp only [hg] at h
    by_cases hv : e.version = rev
    · rw [if_pos hv] at h
      injection h with h₁
      exact h₁.symm
    · simp [if_neg hv] at h

/-- Characterization of a successful `Store`: it went through `put`, the
assigned revision is the state's version counter, and the counter
advanced. -/
theorem store_ok_characterization (s s₁ : MapState) (d d₁ : Device)
    (h : atomixStore.Store s d = (s₁, Except.ok d₁)) :
    d₁ = { d with revision := s.nextVersion } ∧
      s₁ = (s.put d.id (marshal d)).1 ∧
      s₁.nextVersion = s.nextVersion + 1 := by
  unfold atomixStore.Store at h
  by_cases h0 : d.revision = 0
  · simp only [h0, if_pos rfl] at h
    obtain ⟨hs, hd⟩ := Prod.mk.injEq .. ▸ h
    refine ⟨?_, hs.symm, ?_⟩
    · cases hd
      rfl
    · rw [← hs]
      rfl
  · rw [if_neg h0] at h
    cases hp : MapState.putIfVersion s d.id (marshal d) d.revision with
    | error e => simp [hp] at h
    | ok r =>
      simp only [hp] at h
      obtain ⟨hs, hd⟩ := Prod.mk.injEq .. ▸ h
      have hr : r = s.put d.id (marshal d) := putIfVersion_ok s d.id (marshal d) d.revision r hp
      refine ⟨?_, ?_, ?_⟩
      · cases hd
        rw [hr]
        rfl
      · rw [← hs, hr]
      · rw [← hs, hr]
        rfl

theorem MapState.get_remove (s : MapState) (k : String) :
    (s.remove k).get k = none := by
  unfold MapState.remove MapState.get
  rw [List.find?_eq_none]
  intro a ha
  have := List.of_mem_filter ha
  simpa [bne_iff_ne] using this

/-! ## Claim theorems -/

/-- C1: for every device `d` passed to `Store`: if `d`'s revision is
zero, `Store` performs an unconditional put of `d` under key `d.ID`; if
`d`'s revision is non-zero, it performs a compare-and-swap that succeeds
only when the substrate's current version for `d.ID` equals the supplied
revision, returning `Conflict` on mismatch and `NotFound` if the key no
longer exists; on every successful `Store` the device returned to the
caller carries the newly assigned revision (the entry version
`s.nextVersion` assigned by the put). -/
theorem store_cas_semantics (s : MapState) (d : Device) :
    (d.revision = 0 →
      atomixStore.Store s d =
        ((s.put d.id (marshal d)).1, Except.ok { d with revision := s.nextVersion })) ∧
    (d.revision ≠ 0 → s.get d.id = none →
      atomixStore.Store s d = (s, Except.error StoreError.notFound)) ∧
    (∀ e, d.revision ≠ 0 → s.get d.id = some e → e.version ≠ d.revision →
      atomixStore.Store s d = (s, Except.error StoreError.conflict)) ∧
    (∀ e, d.revision ≠ 0 → s.get d.id = some e → e.version = d.revision →
      atomixStore.Store s d =
        ((s.put d.id (marshal d)).1, Except.ok { d with revision := s.nextVersion })) := by
  refine ⟨?_, ?_, ?_, ?_⟩
  · intro h0
    simp [atomixStore.Store, h0, MapState.put_entry_version]
  · intro h0 hg
    simp [atomixStore.Store, h0, MapState.putIfVersion, hg]
  · intro e h0 hg hv
    simp [atomixStore.Store, h0, MapState.putIfVersion, hg, hv]
  · intro e h0 hg hv
    simp [atomixStore.Store, h0, MapState.putIfVersion, hg, hv, MapState.put_entry_version]

/-- Witness for C1: on the one-entry state `stateOne`, an unconditional
create of a fresh device and a guarded update with a stale revision behave
as the theorem states at concrete inputs. -/
theorem store_cas_semantics_witness :
    atomixStore.Store mapEmpty devFoo =
      ((mapEmpty.put devFoo.id (marshal devFoo)).1,
        Except.ok { devFoo with revision := 1 }) ∧
    atomixStore.Store stateOne { devFoo with revision := 7 } =
      (stateOne, Except.error StoreError.conflict) ∧
    atomixStore.Store stateOne { devFoo with id := "gone", revision := 1 } =
      (stateOne, Except.error StoreError.notFound) ∧
    atomixStore.Store stateOne { devFoo with revision := 1 } =
      ((stateOne.put devFoo.id (marshal { devFoo with revision := 1 })).1,
        Except.ok { devFoo with revision := 2 }) := by
  refine ⟨?_, ?_, ?_, ?_⟩
  · exact (store_cas_semantics mapEmpty devFoo).1 rfl
  · exact (store_cas_semantics stateOne { devFoo with revision := 7 }).2.2.1
      { key := "device-foo", value := Bytes.dev devFoo, version := 1 }
      (by decide) rfl (by decide)
  · exact (store_cas_semantics stateOne { devFoo with id := "gone", revision := 1 }).2.1
      (by decide) rfl
  · exact (store_cas_semantics stateOne { devFoo with revision := 1 }).2.2.2
      { key := "device-foo", value := Bytes.dev devFoo, version := 1 }
      (by decide) rfl rfl

/-- C2 counterexample: the claim says `Load` fails with `NotFound` when
the id is absent; on the concrete absent id `"none"` the code instead
returns a nil device with a nil error (device.go lines 320-322). -/
theorem load_absent_counterexample :
    atomixStore.Load mapEmpty "none" = (mapEmpty, Except.ok none) ∧
    (Except.ok none : Except StoreError (Option Device)) ≠
      Except.error StoreError.notFound := by
  exact ⟨rfl, by simp⟩

/-- C2 (amended): `Load(id)` returns the stored device when the id is
present and decodes; when the id is absent it returns a nil device with a
nil error (rather than a `NotFound` failure, which is produced by the
caller-facing service layer); `Load` has no side effects on the store
state. -/
theorem load_semantics (s : MapState) (deviceID : String) :
    (atomixStore.Load s deviceID).1 = s ∧
    (s.get deviceID = none → (atomixStore.Load s deviceID).2 = Except.ok none) ∧
    (∀ e d, s.get deviceID = some e → decodeDevice e = Except.ok d →
      (atomixStore.Load s deviceID).2 = Except.ok (some d)) := by
  refine ⟨?_, ?_, ?_⟩
  · cases hg : s.get deviceID with
    | none => simp [atomixStore.Load, hg]
    | some e =>
      cases hd : decodeDevice e with
      | ok d => simp [atomixStore.Load, hg, hd]
      | error err => simp [atomixStore.Load, hg, hd]
  · intro hg
    simp [atomixStore.Load, hg]
  · intro e d hg hd
    simp [atomixStore.Load, hg, hd]

/-- Witness for C2 (amended): on the one-entry state the absent id
`"none"` yields a nil result and the present id yields the stored
device. -/
theorem load_semantics_witness :
    (atomixStore.Load stateOne "none").2 = Except.ok none ∧
    (atomixStore.Load stateOne "device-foo").2 =
      Except.ok (some { devFoo with revision := 1 }) := by
  refine ⟨?_, ?_⟩
  · exact (load_semantics stateOne "none").2.1 rfl
  · exact (load_semantics stateOne "device-foo").2.2
      { key := "device-foo", value := Bytes.dev devFoo, version := 1 }
      { devFoo with revision := 1 } rfl rfl

/-- C3: the `Add` validation behaviour of the service on the four concrete
inputs of the test: `id="foo"` with `address="foo:1234"` is rejected
(invalid id shape), `id="foobar"` with `address="baz"` is rejected
(invalid address), `version="abc"` is rejected (invalid version), and
`id="device-foo"`, `address="device-foo:1234"`, `version="1.0.0"` is
accepted and returned with a non-zero revision. -/
theorem add_validation_cases :
    (Server.Add mapEmpty
        { emptyDevice with
            id := "foo", typ := "test", address := "foo:1234", version := "1.0.0" }).2 =
      Except.error ServiceError.invalidID ∧
    (Server.Add mapEmpty
        { emptyDevice with
            id := "foobar", typ := "test", address := "baz", version := "1.0.0" }).2 =
      Except.error ServiceError.invalidAddress ∧
    (Server.Add mapEmpty
        { emptyDevice with
            id := "foobar", typ := "test", address := "baz:1234", version := "abc" }).2 =
      Except.error ServiceError.invalidVersion ∧
    (Server.Add mapEmpty devFoo).2 = Except.ok { devFoo with revision := 1 } ∧
    ({ devFoo with revision := 1 } : Device).revision ≠ 0 := by
  refine ⟨rfl, rfl, rfl, rfl, by decide⟩

/-- C4: a successful `Store(d)` followed by `Load(d.ID)` yields a record
equal to `d` in every field except the revision field, and across two
successive successful writes to the same id the revision strictly
increases. -/
theorem store_load_roundtrip (s s₁ s₂ : MapState) (d d₁ e e₂ : Device)
    (h₁ : atomixStore.Store s d = (s₁, Except.ok d₁)) :
    atomixStore.Load s₁ d.id = (s₁, Except.ok (some { d with revision := d₁.revision })) ∧
    (e.id = d.id → atomixStore.Store s₁ e = (s₂, Except.ok e₂) →
      d₁.revision < e₂.revision) := by
  obtain ⟨hd₁, hs₁, hnv⟩ := store_ok_characterization s s₁ d d₁ h₁
  constructor
  · have hget : s₁.get d.id =
        some { key := d.id, value := marshal d, version := s.nextVersion } := by
      rw [hs₁]
      exact MapState.get_put s d.id (marshal d)
    have hrev : d₁.revision = s.nextVersion := by rw [hd₁]
    simp [atomixStore.Load, hget, decodeDevice, marshal, hrev]
  · intro hid h₂
    obtain ⟨hd₂, _, _⟩ := store_ok_characterization s₁ s₂ e e₂ h₂
    have hrev₁ : d₁.revision = s.nextVersion := by rw [hd₁]
    have hrev₂ : e₂.revision = s₁.nextVersion := by rw [hd₂]
    rw [hrev₁, hrev₂, hnv]
    exact Nat.lt_succ_self s.nextVersion

/-- Witness for C4: storing the test device into a fresh map and loading
it back returns the same record at revision 1, and a second write goes to
revision 2. -/
theorem store_load_roundtrip_witness :
    atomixStore.Load stateOne devFoo.id =
      (stateOne, Except.ok (some { devFoo with revision := 1 })) ∧
    (1 : Nat) < 2 := by
  have h₁ : atomixStore.Store mapEmpty devFoo =
      (stateOne, Except.ok { devFoo with revision := 1 }) := by rfl
  have h := store_load_roundtrip mapEmpty stateOne
    { entries :=
        [{ key := "device-foo", value := Bytes.dev { devFoo with revision := 1 },
           version := 2 }]
      nextVersion := 3 }
    devFoo { devFoo with revision := 1 } { devFoo with revision := 1 }
    { devFoo with revision := 2 } h₁
  exact ⟨h.1, h.2 rfl (by rfl)⟩

/-- C5 counterexample: the claim says every store operation, including
`List` and `Watch`, is bounded by a fixed 15-second per-call deadline; the
source passes `context.Background()` (no deadline) to the substrate for
both `List` (device.go line 366) and `Watch` (device.go line 383). -/
theorem deadline_counterexample :
    opDeadlineSeconds StoreOp.listOp ≠ some 15 ∧
    opDeadlineSeconds StoreOp.watchOp ≠ some 15 := by
  decide

/-- C5 (amended): the unary operations `Load`, `Store` and `Delete` are
each bounded by a fixed 15-second substrate-call deadline, while `List`
and `Watch` use an unbounded background context; a deadline expiry is a
`Timeout` failure distinct from `NotFound` and from `Conflict`. -/
theorem unary_deadlines :
    opDeadlineSeconds StoreOp.loadOp = some 15 ∧
    opDeadlineSeconds StoreOp.storeOp = some 15 ∧
    opDeadlineSeconds StoreOp.deleteOp = some 15 ∧
    opDeadlineSeconds StoreOp.listOp = none ∧
    opDeadlineSeconds StoreOp.watchOp = none ∧
    StoreError.timeout ≠ StoreError.notFound ∧
    StoreError.timeout ≠ StoreError.conflict := by
  decide

/-- C6: `Delete` with a non-zero revision is guarded by the same
compare-and-swap rule as `Store` — `Conflict` on revision mismatch,
`NotFound` when the key is absent, and removal of the key on a match —
while `Delete` with revision zero is an unconditional delete keyed by the
device's id. -/
theorem delete_semantics (s : MapState) (d : Device) :
    (d.revision = 0 →
      atomixStore.Delete s d = (s.remove d.id, Except.ok ())) ∧
    (d.revision ≠ 0 → s.get d.id = none →
      atomixStore.Delete s d = (s, Except.error StoreError.notFound)) ∧
    (∀ e, d.revision ≠ 0 → s.get d.id = some e → e.version ≠ d.revision →
      atomixStore.Delete s d = (s, Except.error StoreError.conflict)) ∧
    (∀ e, d.revision ≠ 0 → s.get d.id = some e → e.version = d.revision →
      atomixStore.Delete s d = (s.remove d.id, Except.ok ()) ∧
        (s.remove d.id).get d.id = none) := by
  refine ⟨?_, ?_, ?_, ?_⟩
  · intro h0
    simp [atomixStore.Delete, h0]
  · intro h0 hg
    have hpos : 0 < d.revision := Nat.pos_of_ne_zero h0
    simp [atomixStore.Delete, hpos, MapState.removeIfVersion, hg]
  · intro e h0 hg hv
    have hpos : 0 < d.revision := Nat.pos_of_ne_zero h0
    simp [atomixStore.Delete, hpos, MapState.removeIfVersion, hg, hv]
  · intro e h0 hg hv
    have hpos : 0 < d.revision := Nat.pos_of_ne_zero h0
    refine ⟨?_, MapState.get_remove s d.id⟩
    simp [atomixStore.Delete, hpos, MapState.removeIfVersion, hg, hv]

/-- Witness for C6: on the one-entry state, an unconditional delete, a
stale-revision delete (`Conflict`), an absent-key guarded delete
(`NotFound`) and a matching-revision delete behave as the theorem states
at concrete inputs. -/
theorem delete_semantics_witness :
    atomixStore.Delete stateOne devFoo = (stateOne.remove devFoo.id, Except.ok ()) ∧
    atomixStore.Delete stateOne { devFoo with revision := 9 } =
      (stateOne, Except.error StoreError.conflict) ∧
    atomixStore.Delete stateOne { devFoo with id := "gone", revision := 1 } =
      (stateOne, Except.error StoreError.notFound) ∧
    atomixStore.Delete stateOne { devFoo with revision := 1 } =
      (stateOne.remove devFoo.id, Except.ok ()) := by
  refine ⟨?_, ?_, ?_, ?_⟩
  · exact (delete_semantics stateOne devFoo).1 rfl
  · exact (delete_semantics stateOne { devFoo with revision := 9 }).2.2.1
      { key := "device-foo", value := Bytes.dev devFoo, version := 1 }
      (by decide) rfl (by decide)
  · exact (delete_semantics stateOne { devFoo with id := "gone", revision := 1 }).2.1
      (by decide) rfl
  · exact ((delete_semantics stateOne { devFoo with revision := 1 }).2.2.2
      { key := "device-foo", value := Bytes.dev devFoo, version := 1 }
      (by decide) rfl rfl).1

theorem watchReplay_ids (l : List Entry)
    (h : ∀ e ∈ l, ∃ d₀, e.value = Bytes.dev d₀) :
    ((l.map (fun e => ({ typ := MapEventType.noneEvt, entry := e } : MapEvent))).filterMap
        watchEventOf).map (fun ev => ev.device.id) =
      l.map (fun e => e.key) := by
  induction l with
  | nil => rfl
  | cons a t ih =>
    obtain ⟨d₀, hv⟩ := h a (List.mem_cons_self a t)
    have ht : ∀ e ∈ t, ∃ d₀, e.value = Bytes.dev d₀ :=
      fun e he => h e (List.mem_cons_of_mem a he)
    simp only [List.map_cons, List.filterMap_cons]
    rw [show watchEventOf { typ := MapEventType.noneEvt, entry := a } =
        some { typ := EventType.EventNone
               device := { d₀ with id := a.key, revision := a.version } } by
      simp [watchEventOf, decodeDevice, hv, eventTypeOfMapEvent]]
    simp only [List.map_cons, ih ht]

/-- C7: a `Watch` call first yields exactly one event per record currently
present in the store (the replay, whose devices carry exactly the current
keys, in order), and only after that replay does the stream continue with
the events for subsequent mutations: the watch output is the replay part
followed by the live part, with no live event before the replay
completes.  The hypothesis states that every stored value unmarshals
(which holds for all values written through `Store`). -/
theorem watch_replay_then_live (s : MapState) (live : MapEventStream)
    (h : ∀ e ∈ s.entries, ∃ d₀, e.value = Bytes.dev d₀) :
    atomixStore.Watch s live = watchReplay s ++ watchLive live ∧
    (watchReplay s).map (fun ev => ev.device.id) = s.entries.map (fun e => e.key) := by
  constructor
  · unfold atomixStore.Watch MapState.watchStream watchReplay watchLive
    exact List.filterMap_append _ _ _
  · exact watchReplay_ids s.entries h

/-- Witness for C7: watching the one-entry state with one subsequent live
insertion replays the present record first and appends the live event
after it. -/
theorem watch_replay_then_live_witness :
    atomixStore.Watch stateOne
        [{ typ := MapEventType.insertedEvt
           entry := { key := "device-bar", value := Bytes.dev devFoo, version := 2 } }] =
      watchReplay stateOne ++
        watchLive
          [{ typ := MapEventType.insertedEvt
             entry := { key := "device-bar", value := Bytes.dev devFoo, version := 2 } }] ∧
    (watchReplay stateOne).map (fun ev => ev.device.id) =
      stateOne.entries.map (fun e => e.key) := by
  exact watch_replay_then_live stateOne
    [{ typ := MapEventType.insertedEvt
       entry := { key := "device-bar", value := Bytes.dev devFoo, version := 2 } }]
    (by
      intro e he
      simp only [stateOne, List.mem_singleton] at he
      subst he
      exact ⟨devFoo, rfl⟩)

/-- C8 counterexample: the claim says no substrate entry or event is
silently dropped from a `List` or `Watch` stream because of a failure
while processing it; on the concrete state holding one entry whose bytes
fail to unmarshal, `List` reports success with an empty result and
`Watch` emits nothing — the processing failure is swallowed. -/
theorem stream_drop_counterexample :
    corruptState.entries.length = 1 ∧
    atomixStore.List corruptState = Except.ok [] ∧
    atomixStore.Watch corruptState [] = [] := by
  exact ⟨rfl, rfl, rfl⟩

/-- C8 (amended): failures of the unary store operations are returned as
typed results to the immediate caller, and every substrate entry or event
that decodes successfully is delivered on the `List`/`Watch` stream; but
an entry or event whose value fails to decode is silently skipped — the
stream reports no error for it (`List` always succeeds in the model, and
the `Watch` forwarding loop drops the event). -/
theorem stream_propagation (s : MapState) (live : MapEventStream) :
    (∃ l, atomixStore.List s = Except.ok l ∧
      ∀ e ∈ s.entries, ∀ d, decodeDevice e = Except.ok d → d ∈ l) ∧
    (∀ ev ∈ live, ∀ d, decodeDevice ev.entry = Except.ok d →
      ({ typ := eventTypeOfMapEvent ev.typ, device := d } : Event) ∈
        atomixStore.Watch s live) := by
  constructor
  · refine ⟨s.entries.filterMap (fun e => (decodeDevice e).toOption), rfl, ?_⟩
    intro e he d hd
    exact List.mem_filterMap.2 ⟨e, he, by rw [hd]; rfl⟩
  · intro ev hev d hd
    refine List.mem_filterMap.2 ⟨ev, ?_, ?_⟩
    · unfold MapState.watchStream
      exact List.mem_append_right _ hev
    · simp [watchEventOf, hd]

/-- Witness for C8 (amended): on the one-entry state with one live event,
the stored device is delivered by `List` and the live event is forwarded
by `Watch`. -/
theorem stream_propagation_witness :
    (∃ l, atomixStore.List stateOne = Except.ok l ∧
      ({ devFoo with revision := 1 } : Device) ∈ l) ∧
    ({ typ := EventType.EventUpdated, device := { devFoo with revision := 3 } } : Event) ∈
      atomixStore.Watch stateOne
        [{ typ := MapEventType.updatedEvt
           entry := { key := "device-foo", value := Bytes.dev devFoo, version := 3 } }] := by
  constructor
  · obtain ⟨l, hl, hmem⟩ := (stream_propagation stateOne []).1
    exact ⟨l, hl, hmem { key := "device-foo", value := Bytes.dev devFoo, version := 1 }
      (by simp [stateOne]) { devFoo with revision := 1 } rfl⟩
  · exact (stream_propagation stateOne
      [{ typ := MapEventType.updatedEvt
         entry := { key := "device-foo", value := Bytes.dev devFoo, version := 3 } }]).2
      { typ := MapEventType.updatedEvt
        entry := { key := "device-foo", value := Bytes.dev devFoo, version := 3 } }
      (by simp) { devFoo with revision := 3 } rfl

/-- C9 counterexample: the claim says no field of a Device the caller
already holds is modified by a later operation; on the concrete device
`devFoo` with revision 0, `Store` overwrites the caller's device in place
(device.go line 348, `device.Revision = ...` through the caller's
pointer), so the device the caller holds after the call differs from the
value it held before. -/
theorem store_mutation_counterexample :
    (atomixStore.Store mapEmpty devFoo).2 = Except.ok { devFoo with revision := 1 } ∧
    ({ devFoo with revision := 1 } : Device) ≠ devFoo := by
  exact ⟨rfl, by decide⟩

/-- C9 (amended): the only in-place mutation a store operation performs on
a caller-held Device is `Store`'s assignment of the newly assigned
revision: after a successful `Store`, the caller's device equals its old
value in every field except `revision`. -/
theorem store_mutation_scope (s s₁ : MapState) (d d₁ : Device)
    (h : atomixStore.Store s d = (s₁, Except.ok d₁)) :
    d₁ = { d with revision := d₁.revision } := by
  obtain ⟨hd₁, _, _⟩ := store_ok_characterization s s₁ d d₁ h
  rw [hd₁]

/-- Witness for C9 (amended): the caller's device after storing `devFoo`
differs from the one it held before only in the revision field. -/
theorem store_mutation_scope_witness :
    ({ devFoo with revision := 1 } : Device) =
      { devFoo with revision := ({ devFoo with revision := 1 } : Device).revision } := by
  exact store_mutation_scope mapEmpty stateOne devFoo { devFoo with revision := 1 } rfl

/-- C10: every device produced by `Load`, `List` or `Watch` carries the
substrate entry's key as its `ID` and the entry's version as its
`Revision`, regardless of the id or revision recorded in the serialized
bytes: this holds for `decodeDevice` on any entry, and hence for every
member of a `List` result, every event of a `Watch` stream, and every
`Load` result (whose id is the requested one). -/
theorem decode_key_version :
    (∀ e d, decodeDevice e = Except.ok d → d.id = e.key ∧ d.revision = e.version) ∧
    (∀ s l, atomixStore.List s = Except.ok l →
      ∀ d ∈ l, ∃ e ∈ s.entries, d.id = e.key ∧ d.revision = e.version) ∧
    (∀ s live ev, ev ∈ atomixStore.Watch s live →
      ∃ me ∈ s.watchStream live,
        ev.device.id = me.entry.key ∧ ev.device.revision = me.entry.version) ∧
    (∀ s k d, (atomixStore.Load s k).2 = Except.ok (some d) → d.id = k) := by
  have hdec : ∀ e d, decodeDevice e = Except.ok d → d.id = e.key ∧ d.revision = e.version := by
    intro e d h
    unfold decodeDevice at h
    cases hv : e.value with
    | corrupt => simp [hv] at h
    | dev d₀ =>
      simp only [hv] at h
      injection h with h₁
      rw [← h₁]
      exact ⟨rfl, rfl⟩
  refine ⟨hdec, ?_, ?_, ?_⟩
  · intro s l hl d hd
    have hl₁ : l = s.entries.filterMap (fun e => (decodeDevice e).toOption) := by
      unfold atomixStore.List at hl
      injection hl.symm
    rw [hl₁] at hd
    obtain ⟨e, he, hde⟩ := List.mem_filterMap.1 hd
    refine ⟨e, he, ?_⟩
    cases hdd : decodeDevice e with
    | error err => rw [hdd] at hde; exact absurd hde (by simp [Except.toOption])
    | ok d₀ =>
      rw [hdd] at hde
      have : d₀ = d := by simpa [Except.toOption] using hde
      exact this ▸ hdec e d₀ hdd
  · intro s live ev hev
    obtain ⟨me, hme, hfe⟩ := List.mem_filterMap.1 hev
    refine ⟨me, hme, ?_⟩
    unfold watchEventOf at hfe
    cases hdd : decodeDevice me.entry with
    | error err => rw [hdd] at hfe; exact absurd hfe (by simp)
    | ok d₀ =>
      rw [hdd] at hfe
      injection hfe with h₁
      rw [← h₁]
      exact hdec me.entry d₀ hdd
  · intro s k d hload
    cases hg : s.get k with
    | none => simp [atomixStore.Load, hg] at hload
    | some e =>
      cases hdd : decodeDevice e with
      | error err => simp [atomixStore.Load, hg, hdd] at hload
      | ok d₀ =>
        have hd₀ : d₀ = d := by
          have := hload
          simp [atomixStore.Load, hg, hdd] at this
          exact this
        have hkey : e.key = k := by
          have := List.find?_some hg
          simpa using this
        have := (hdec e d₀ hdd).1
        rw [hd₀] at this
        rw [this, hkey]

/-- Witness for C10: decoding an entry whose stored bytes carry a stale id
and revision yields the entry's key and version instead. -/
theorem decode_key_version_witness :
    ({ devFoo with id := "other-key", revision := 9 } : Device).id = "other-key" ∧
    ({ devFoo with id := "other-key", revision := 9 } : Device).revision = 9 := by
  exact decode_key_version.1
    { key := "other-key", value := Bytes.dev { devFoo with revision := 4 }, version := 9 }
    { devFoo with id := "other-key", revision := 9 } rfl
